import Mathlib

/-!
Verification of the Game-of-Life core of the `gol-rust` repository against its
natural-language specification.

The Rust sources are shallowly embedded:
* a packed cell byte (`u8`) becomes a `Nat`, with bitwise operations written
  exactly as in the source and `u8` overflow made explicit with `% 256`
  (release-profile semantics: Rust `assert!` failures are modelled as
  `Option.none`, implicit arithmetic overflow wraps; debug builds would
  additionally panic on the wrap, which is noted where it matters);
* a grid (`CellArray<H, W>`, a stack array `[[Cell; W]; H]`) becomes a
  function `Nat → Nat → Nat` from row and column indices to the cell byte,
  mutated by pointwise functional update;
* `isize` coordinates become `Int`; the source's `wrapping_add` and
  `wrapping_sub` are embedded as exact two's-complement wrapping on 64 bits
  (`wrapping_add`, `wrapping_sub` below), and Rust's truncated `%` is
  `Int.tmod`;
* fallible operations (`assert!`) return `Option`.

There are two families of cell/grid implementations in the repository:
the `src/gol/types/` family (used by `Engine`) and the
`src/cell.rs` / `src/gol/cell.rs` family.  Both are embedded.
-/

-- Cell state of `src/gol/types/cell.rs`: a wrapper around one byte.
-- Bit 0 is the alive flag, bits 1-4 the neighbour count, bits 5-7 unused.
namespace GolTypes

namespace Cell

/-- Rust `Cell::new` of `src/gol/types/cell.rs`: the zero byte (dead, zero neighbours). -/
def new : Nat := 0

/-- Rust `Cell::spawn`: `*self.0 |= 1`. -/
def spawn (b : Nat) : Nat := b ||| 1

/-- Rust `Cell::kill`: `*self.0 &= !1`, i.e. clear bit 0 (`!1 = 0b11111110` on `u8`). -/
def kill (b : Nat) : Nat := b &&& 0b11111110

/-- Rust `Cell::alive`: `*self.0 & 1 == 1`. -/
def alive (b : Nat) : Bool := b &&& 1 == 1

/-- Rust `Cell::neighbours`: `(*self.0 >> 1) & 0b00001111`. -/
def neighbours (b : Nat) : Nat := (b >>> 1) &&& 0b00001111

/-- Rust `Cell::add_neighbour`:
`let count = (*self.0 >> 1) & 0b1111; assert!(count + 1 <= 8); *self.0 = (*self.0 & 1) | ((count + 1) << 1)`.
The `assert!` is modelled as `none` (it aborts in every build profile). -/
def add_neighbour (b : Nat) : Option Nat :=
  let count := (b >>> 1) &&& 0b1111
  if count + 1 ≤ 8 then some ((b &&& 0b00000001) ||| ((count + 1) <<< 1)) else none

/-- Rust `Cell::remove_neighbour`:
`let count = (*self.0 >> 1) & 0b1111; *self.0 = (*self.0 & 1) | ((count - 1) << 1)`.
The underflow guard `if count == 0 ... return` is commented out in the source
(marked `TODO: This part of the code does not behave as intended`), so
`count - 1` is an unchecked `u8` subtraction: in a release build it wraps
modulo 256 (embedded here as `(count + 255) % 256`); a debug build panics.
The subsequent `u8` shift also truncates, hence the outer `% 256`. -/
def remove_neighbour (b : Nat) : Nat :=
  let count := (b >>> 1) &&& 0b1111
  (b &&& 0b00000001) ||| ((((count + 255) % 256) <<< 1) % 256)

end Cell

end GolTypes

-- Cell state of `src/cell.rs` and `src/gol/cell.rs` (the two files carry an
-- identical implementation).  Same byte layout as `GolTypes.Cell`.
namespace GolCell

/-- Rust `Cell::new` of `src/cell.rs` and `src/gol/cell.rs`: the zero byte. -/
def new : Nat := 0

/-- Rust `Cell::spawn`: `self.0 |= 1`. -/
def spawn (b : Nat) : Nat := b ||| 1

/-- Rust `Cell::kill` of `src/cell.rs` / `src/gol/cell.rs`: `self.0 &= 0` —
this clears the whole byte, not just bit 0. -/
def kill (b : Nat) : Nat := b &&& 0

/-- Rust `Cell::set_neighbors`:
`assert!(count <= 8); self.0 &= 0b11100001; self.0 |= (count << 1) & 0b00011110`. -/
def set_neighbors (b count : Nat) : Option Nat :=
  if count ≤ 8 then some ((b &&& 0b11100001) ||| ((count <<< 1) &&& 0b00011110)) else none

/-- Rust `Cell::neighbour_cnt`: `(self.0 >> 1) & 0b00001111`. -/
def neighbour_cnt (b : Nat) : Nat := (b >>> 1) &&& 0b00001111

/-- Rust `Cell::is_alive`: `self.0 & 1 == 1`. -/
def is_alive (b : Nat) : Bool := b &&& 1 == 1

/-- Rust `Cell::clear`: `self.0 = 0`. -/
def clear (_b : Nat) : Nat := 0

/-- Rust `Cell::increment_neighbour_count`:
`let count = (self.0 >> 1) & 0b1111; assert!(count <= 8); self.0 = (self.0 & 1) | ((count + 1) << 1)`.
Note that the assertion checks the count *before* the increment, and the
guard `if count == 8 ... return` is commented out (marked `TODO: Weird behavior`):
at a stored count of 8 the assertion passes and the count advances to 9. -/
def increment_neighbour_count (b : Nat) : Option Nat :=
  let count := (b >>> 1) &&& 0b1111
  if count ≤ 8 then some ((b &&& 0b00000001) ||| ((count + 1) <<< 1)) else none

/-- Rust `Cell::decrement_neighbour_count`:
`let count = (self.0 >> 1) & 0b1111; if count == 0 { return; } self.0 = (self.0 & 1) | ((count - 1) << 1)`.
This variant has the underflow guard, so decrement at zero is a no-op. -/
def decrement_neighbour_count (b : Nat) : Nat :=
  let count := (b >>> 1) &&& 0b1111
  if count = 0 then b else (b &&& 0b00000001) ||| ((count - 1) <<< 1)

end GolCell

/-- Normal form of a padding-free cell byte: `2 * count + alive_bit`,
i.e. `(neighbor_count << 1) | alive_bit` with the three high bits zero. -/
def nf (a : Bool) (n : Nat) : Nat := 2 * n + (if a then 1 else 0)

/-- Padding invariant from the spec: the byte equals
`(neighbor_count << 1) | alive_bit`, i.e. the 3 high padding bits are zero. -/
def PadFree (b : Nat) : Prop := b = (GolTypes.Cell.neighbours b <<< 1) ||| (b &&& 1)

instance (b : Nat) : Decidable (PadFree b) := by
  unfold PadFree; infer_instance

set_option maxRecDepth 4096 in
/-- Every padding-free byte is below 32 and is the normal form of its fields. -/
theorem padFree_nf : ∀ b, PadFree b → b < 32 ∧ b = nf (GolTypes.Cell.alive b) (GolTypes.Cell.neighbours b) := by
  have h : ∀ b, b < 256 → PadFree b → b < 32 ∧ b = nf (GolTypes.Cell.alive b) (GolTypes.Cell.neighbours b) := by decide
  intro b hb
  refine h b ?_ hb
  have h1 : GolTypes.Cell.neighbours b <<< 1 < 32 := by
    have h15 : GolTypes.Cell.neighbours b ≤ 15 := Nat.and_le_right
    simp only [Nat.shiftLeft_eq, pow_one]
    omega
  have h2 : b &&& 1 < 32 := by
    have : b &&& 1 ≤ 1 := Nat.and_le_right
    omega
  have h3 : (GolTypes.Cell.neighbours b <<< 1) ||| (b &&& 1) < 32 :=
    Nat.or_lt_two_pow (n := 5) h1 h2
  unfold PadFree at hb
  omega

instance optionElimDecidable (o : Option Nat) (P : Nat → Prop) [DecidablePred P] :
    Decidable (o.elim True P) :=
  match o with
  | none => .isTrue trivial
  | some b => inferInstanceAs (Decidable (P b))

/-- Claim C3: for every cell whose stored neighbour count is 0, the decrement
operation is a no-op.  This holds for `Cell::decrement_neighbour_count`
(`src/cell.rs` / `src/gol/cell.rs`), but `types::Cell::remove_neighbour` has
its underflow guard commented out: on the all-zero byte the unchecked `u8`
subtraction wraps (release profile) and produces the byte `0b11111110`, whose
stored count reads back as 15 — not a no-op (a debug build panics instead).
This contradicts the source's own intent, recorded in its comment
`TODO: This part of the code does not behave as intended`. -/
theorem c3_decrement_at_zero :
    GolCell.decrement_neighbour_count 0 = 0 ∧
    GolTypes.Cell.remove_neighbour 0 = 254 ∧
    GolTypes.Cell.neighbours (GolTypes.Cell.remove_neighbour 0) = 15 := by decide

/-- Claim C4, counterexample: `Cell::increment_neighbour_count` applied to a
dead cell whose stored count is already 8 (byte `0b00010000 = 16`) does not
panic and does not reject — its assertion `count <= 8` passes and the stored
count silently advances to 9 (byte 18). -/
theorem c4_increment_at_8_advances :
    GolCell.neighbour_cnt 16 = 8 ∧
    GolCell.increment_neighbour_count 16 = some 18 ∧
    GolCell.neighbour_cnt 18 = 9 := by decide

/-- Claim C4, amended: `types::Cell::add_neighbour` does reject an increment at
a stored count of 8 (its assertion `count + 1 <= 8` fails, a panic), but the
variant `Cell::increment_neighbour_count` rejects only at a stored count of 9
or more; at a stored count of exactly 8 it silently advances the count to 9
(it never wraps the count to 0). -/
theorem c4_amended_increment_ceiling : ∀ b, b < 32 →
    (GolTypes.Cell.neighbours b = 8 → GolTypes.Cell.add_neighbour b = none) ∧
    (9 ≤ GolCell.neighbour_cnt b → GolCell.increment_neighbour_count b = none) ∧
    (GolCell.neighbour_cnt b = 8 →
      GolCell.increment_neighbour_count b = some (b + 2) ∧
      GolCell.neighbour_cnt (b + 2) = 9) := by decide

/-- Witness for the amended claim C4, at the dead cell with stored count 8. -/
theorem c4_amended_increment_ceiling_witness :
    16 < 32 ∧
    ((GolTypes.Cell.neighbours 16 = 8 → GolTypes.Cell.add_neighbour 16 = none) ∧
     (9 ≤ GolCell.neighbour_cnt 16 → GolCell.increment_neighbour_count 16 = none) ∧
     (GolCell.neighbour_cnt 16 = 8 →
       GolCell.increment_neighbour_count 16 = some (16 + 2) ∧
       GolCell.neighbour_cnt (16 + 2) = 9)) :=
  ⟨by decide, c4_amended_increment_ceiling 16 (by decide)⟩

/-- Claim C5, counterexample: the `kill()` of `src/cell.rs` (`self.0 &= 0`)
does not leave the neighbour-count bits unchanged — on the alive cell with one
recorded neighbour (byte 3) it zeroes the whole byte, dropping the count from
1 to 0. -/
theorem c5_src_kill_clears_count :
    GolCell.neighbour_cnt 3 = 1 ∧
    GolCell.kill 3 = 0 ∧
    GolCell.neighbour_cnt (GolCell.kill 3) = 0 := by decide

set_option maxRecDepth 8192 in
/-- Claim C5, amended: `types::Cell::kill` clears the alive bit while leaving
every other bit of the byte (neighbour count and padding) unchanged, and is
idempotent; the `kill()` of `src/cell.rs` / `src/gol/cell.rs` instead clears
the entire byte to zero (and is also idempotent). -/
theorem c5_amended_kill : ∀ b, b < 256 →
    (GolTypes.Cell.alive (GolTypes.Cell.kill b) = false ∧
     GolTypes.Cell.kill b / 2 = b / 2 ∧
     GolTypes.Cell.kill (GolTypes.Cell.kill b) = GolTypes.Cell.kill b) ∧
    (GolCell.kill b = 0 ∧
     GolCell.kill (GolCell.kill b) = GolCell.kill b) := by decide

/-- Witness for the amended claim C5, at the alive cell with one neighbour. -/
theorem c5_amended_kill_witness :
    3 < 256 ∧
    ((GolTypes.Cell.alive (GolTypes.Cell.kill 3) = false ∧
      GolTypes.Cell.kill 3 / 2 = 3 / 2 ∧
      GolTypes.Cell.kill (GolTypes.Cell.kill 3) = GolTypes.Cell.kill 3) ∧
     (GolCell.kill 3 = 0 ∧
      GolCell.kill (GolCell.kill 3) = GolCell.kill 3)) :=
  ⟨by decide, c5_amended_kill 3 (by decide)⟩

/-- Claim C8, counterexample: the all-zero byte is padding-free, but
`types::Cell::remove_neighbour` (whose underflow guard is commented out)
turns it into byte 254, which has nonzero padding bits. -/
theorem c8_padding_broken_by_underflow :
    PadFree 0 ∧
    GolTypes.Cell.remove_neighbour 0 = 254 ∧
    ¬ PadFree 254 := by decide

set_option maxRecDepth 4096 in
/-- Claim C8, amended: every Cell operation of both variants — `new`, `spawn`,
both `kill`s, `clear`, `add_neighbour`/`increment_neighbour_count` (when they
succeed), the guarded `decrement_neighbour_count`, and `set_neighbors` under
its `count <= 8` precondition — preserves the padding invariant
`byte = (neighbor_count << 1) | alive_bit`; the one exception is
`types::Cell::remove_neighbour`, which preserves it only when the stored
count is nonzero (at count 0 its unchecked `u8` subtraction wraps). -/
theorem c8_amended_padding : ∀ b, PadFree b →
    PadFree GolTypes.Cell.new ∧
    PadFree (GolTypes.Cell.spawn b) ∧
    PadFree (GolTypes.Cell.kill b) ∧
    PadFree (GolCell.kill b) ∧
    PadFree (GolCell.clear b) ∧
    (GolTypes.Cell.add_neighbour b).elim True PadFree ∧
    (GolCell.increment_neighbour_count b).elim True PadFree ∧
    PadFree (GolCell.decrement_neighbour_count b) ∧
    (∀ c, c ≤ 8 → (GolCell.set_neighbors b c).elim True PadFree) ∧
    (1 ≤ GolTypes.Cell.neighbours b → PadFree (GolTypes.Cell.remove_neighbour b)) := by
  have key : ∀ b, b < 32 → PadFree b →
      PadFree GolTypes.Cell.new ∧
      PadFree (GolTypes.Cell.spawn b) ∧
      PadFree (GolTypes.Cell.kill b) ∧
      PadFree (GolCell.kill b) ∧
      PadFree (GolCell.clear b) ∧
      (GolTypes.Cell.add_neighbour b).elim True PadFree ∧
      (GolCell.increment_neighbour_count b).elim True PadFree ∧
      PadFree (GolCell.decrement_neighbour_count b) ∧
      (∀ c, c ≤ 8 → (GolCell.set_neighbors b c).elim True PadFree) ∧
      (1 ≤ GolTypes.Cell.neighbours b → PadFree (GolTypes.Cell.remove_neighbour b)) := by decide
  intro b hpf
  exact key b (padFree_nf b hpf).1 hpf

/-- Witness for the amended claim C8, at the dead cell with one neighbour. -/
theorem c8_amended_padding_witness :
    PadFree 2 ∧
    (PadFree GolTypes.Cell.new ∧
     PadFree (GolTypes.Cell.spawn 2) ∧
     PadFree (GolTypes.Cell.kill 2) ∧
     PadFree (GolCell.kill 2) ∧
     PadFree (GolCell.clear 2) ∧
     (GolTypes.Cell.add_neighbour 2).elim True PadFree ∧
     (GolCell.increment_neighbour_count 2).elim True PadFree ∧
     PadFree (GolCell.decrement_neighbour_count 2) ∧
     (∀ c, c ≤ 8 → (GolCell.set_neighbors 2 c).elim True PadFree) ∧
     (1 ≤ GolTypes.Cell.neighbours 2 → PadFree (GolTypes.Cell.remove_neighbour 2))) :=
  ⟨by decide, c8_amended_padding 2 (by decide)⟩

/-- A grid of cell bytes, indexed by row then column.  This embeds the
backing array `[[Cell; W]; H]` of `CellArray<H, W>`; only indices with
row `< H` and column `< W` are ever read by the embedded operations. -/
def Grid : Type := Nat → Nat → Nat

/-- `CellArray::new`: every cell is the zero byte. -/
def freshGrid : Grid := fun _ _ => 0

/-- Functional update of one entry of the backing array. -/
def gupdate (g : Grid) (r c v : Nat) : Grid :=
  fun r' c' => if r' = r ∧ c' = c then v else g r' c'

/-- Rust wrapped index computation of `CellArray::cell` / `CellArray::mut_cell`:
`((x % W as isize + W as isize) % W as isize) as usize`, where `%` is Rust's
truncated remainder on `isize`, i.e. `Int.tmod`. -/
def wrap (x : Int) (n : Nat) : Nat := ((x.tmod n + n).tmod n).toNat

theorem tmod_emod (a n : Int) : a.tmod n % n = a % n := by
  rw [Int.tmod_def, Int.sub_eq_add_neg, ← Int.mul_neg, Int.add_mul_emod_self_left]

theorem tmod_gt_neg (x : Int) (n : Nat) (hn : 0 < n) : -(n : Int) < x.tmod n := by
  cases x with
  | ofNat m =>
    have h0 : 0 ≤ Int.tmod (Int.ofNat m) n := Int.tmod_nonneg _ (Int.ofNat_nonneg m)
    omega
  | negSucc m =>
    have he : Int.tmod (Int.negSucc m) (n : Int) = -(((m + 1) % n : Nat) : Int) := rfl
    have hlt : (m + 1) % n < n := Nat.mod_lt _ hn
    rw [he]
    omega

theorem wrap_eq (x : Int) (n : Nat) (hn : 0 < n) : (wrap x n : Int) = x % n := by
  unfold wrap
  have h1 : (0 : Int) ≤ x.tmod n + n := by
    have := tmod_gt_neg x n hn
    omega
  rw [Int.tmod_eq_emod h1 (by omega : (0 : Int) ≤ (n : Int))]
  have h2 : (x.tmod n + n) % (n : Int) = x % n := by
    rw [show x.tmod (n : Int) + n = x.tmod n + (n : Int) * 1 by ring,
      Int.add_mul_emod_self_left, tmod_emod]
  rw [h2]
  exact Int.toNat_of_nonneg (Int.emod_nonneg x (by omega : (n : Int) ≠ 0))

theorem wrap_lt (x : Int) (n : Nat) (hn : 0 < n) : wrap x n < n := by
  have h1 := wrap_eq x n hn
  have h2 : x % (n : Int) < n := Int.emod_lt_of_pos x (by omega : (0 : Int) < (n : Int))
  omega

theorem wrap_coe (k n : Nat) (hk : k < n) : wrap (k : Int) n = k := by
  have h1 := wrap_eq (k : Int) n (by omega)
  have h2 : ((k : Nat) : Int) % (n : Int) = (k : Int) :=
    Int.emod_eq_of_lt (by omega) (by omega)
  omega

theorem wrap_eq_iff {n : Nat} (hn : 0 < n) {c : Nat} (hc : c < n) (a : Int) :
    wrap a n = c ↔ a % n = (c : Int) := by
  have h := wrap_eq a n hn
  constructor <;> intro h2 <;> omega

theorem wrap_eq_wrap_iff {n : Nat} (hn : 0 < n) (a b : Int) :
    wrap a n = wrap b n ↔ a % n = b % n := by
  have ha := wrap_eq a n hn
  have hb := wrap_eq b n hn
  constructor <;> intro h <;> omega

theorem wrap_sub_shift {n : Nat} (hn : 0 < n) {c : Nat} (hc : c < n) (x d : Int) :
    wrap (x - d) n = c ↔ wrap ((c : Int) + d) n = wrap x n := by
  rw [wrap_eq_iff hn hc, wrap_eq_wrap_iff hn]
  constructor
  · intro h
    rw [← h, Int.emod_add_emod]
    ring_nf
  · intro h
    have h2 : (x - d) % (n : Int) = ((c : Int) + d - d) % n := by
      rw [Int.sub_emod, ← h, ← Int.sub_emod]
    rw [h2, add_sub_cancel_right]
    exact Int.emod_eq_of_lt (by omega) (by omega)

theorem wrap_add_shift {n : Nat} (hn : 0 < n) {c : Nat} (hc : c < n) (x d : Int) :
    wrap (x + d) n = c ↔ wrap ((c : Int) - d) n = wrap x n := by
  have h := wrap_sub_shift hn hc x (-d)
  rw [sub_neg_eq_add] at h
  rw [h, ← sub_eq_add_neg]

theorem wrap_id_shift {n : Nat} (hn : 0 < n) {c : Nat} (hc : c < n) (x : Int) :
    wrap x n = c ↔ wrap (c : Int) n = wrap x n := by
  rw [wrap_coe c n hc]
  exact eq_comm

/-- Smallest `isize` value, `-2^63`. -/
def isizeMin : Int := -9223372036854775808

/-- Largest `isize` value, `2^63 - 1`. -/
def isizeMax : Int := 9223372036854775807

/-- Rust `isize::wrapping_add`: two's-complement wrapping addition on 64 bits. -/
def wrapping_add (a b : Int) : Int :=
  (a + b + 9223372036854775808) % 18446744073709551616 - 9223372036854775808

/-- Rust `isize::wrapping_sub`: two's-complement wrapping subtraction on 64 bits. -/
def wrapping_sub (a b : Int) : Int :=
  (a - b + 9223372036854775808) % 18446744073709551616 - 9223372036854775808

namespace CellArray

/-- Rust `CellArray::cell` (`src/gol/types/cell_array.rs`, identically in
`src/gol/cell_array.rs` and `src/cell.rs`): read the cell at wrapped
coordinates; `x` wraps modulo the width `W`, `y` modulo the height `H`. -/
def cell (H W : Nat) (g : Grid) (x y : Int) : Nat := g (wrap y H) (wrap x W)

/-- Rust `CellArray::mut_cell`: the same wrapped address computation, used for
writing; `mut_cell H W g x y v` is the grid after writing byte `v` through
the returned mutable reference. -/
def mut_cell (H W : Nat) (g : Grid) (x y : Int) (v : Nat) : Grid :=
  gupdate g (wrap y H) (wrap x W) v

/-- Rust `CellArray::neighbour_coordinates`: the eight Moore offsets, not yet
torus-wrapped, computed with `x.wrapping_sub(1)` / `x.wrapping_add(1)` on
`isize` (embedded as exact 64-bit two's-complement wrapping, so at
`isize::MIN` the left offset really lands on `isize::MAX`). -/
def neighbour_coordinates (x y : Int) : List (Int × Int) :=
  [(wrapping_sub x 1, wrapping_sub y 1), (x, wrapping_sub y 1),
   (wrapping_add x 1, wrapping_sub y 1),
   (wrapping_sub x 1, y), (wrapping_add x 1, y),
   (wrapping_sub x 1, wrapping_add y 1), (x, wrapping_add y 1),
   (wrapping_add x 1, wrapping_add y 1)]

/-- Rust `CellArray::calc_neighbours` (`src/gol/cell_array.rs`), the
brute-force recount the spec calls `count_alive_neighbors_bruteforce`: read
the eight wrapped neighbours and count the alive ones (`is_alive`/`alive`
are the same bit test in both cell families). -/
def calc_neighbours (H W : Nat) (g : Grid) (x y : Int) : Nat :=
  (neighbour_coordinates x y).countP (fun p => GolTypes.Cell.alive (cell H W g p.1 p.2))

/-- One iteration of the neighbour loop of `CellArray::spawn`
(`src/gol/types/cell_array.rs`): `self.mut_cell(*nx, *ny).add_neighbour()`. -/
def addNb (H W : Nat) (gc : Grid) (p : Int × Int) : Option Grid :=
  (GolTypes.Cell.add_neighbour (cell H W gc p.1 p.2)).map (mut_cell H W gc p.1 p.2)

/-- Rust `CellArray::spawn` (`src/gol/types/cell_array.rs`): set the target
cell alive, then `add_neighbour` each of its eight wrapped neighbours
(`none` if one of the `assert!`s fires). -/
def spawn (H W : Nat) (g : Grid) (x y : Int) : Option Grid :=
  (neighbour_coordinates x y).foldlM (addNb H W)
    (mut_cell H W g x y (GolTypes.Cell.spawn (cell H W g x y)))

/-- One iteration of the neighbour loop of `CellArray::kill_cell`:
`self.mut_cell(*nx, *ny).remove_neighbour()`. -/
def rmNb (H W : Nat) (gc : Grid) (p : Int × Int) : Grid :=
  mut_cell H W gc p.1 p.2 (GolTypes.Cell.remove_neighbour (cell H W gc p.1 p.2))

/-- Rust `CellArray::kill_cell` (`src/gol/types/cell_array.rs`): kill the
target cell, then `remove_neighbour` each of its eight wrapped neighbours. -/
def kill_cell (H W : Nat) (g : Grid) (x y : Int) : Grid :=
  (neighbour_coordinates x y).foldl (rmNb H W)
    (mut_cell H W g x y (GolTypes.Cell.kill (cell H W g x y)))

end CellArray

/-- Away from the two extreme `isize` values, the wrapping decrement is the
plain decrement. -/
theorem wrapping_sub_one (x : Int) (h1 : isizeMin < x) (h2 : x < isizeMax) :
    wrapping_sub x 1 = x - 1 := by
  simp only [wrapping_sub, isizeMin, isizeMax] at h1 h2 ⊢
  rw [Int.emod_eq_of_lt (by omega) (by omega)]
  omega

/-- Away from the two extreme `isize` values, the wrapping increment is the
plain increment. -/
theorem wrapping_add_one (x : Int) (h1 : isizeMin < x) (h2 : x < isizeMax) :
    wrapping_add x 1 = x + 1 := by
  simp only [wrapping_add, isizeMin, isizeMax] at h1 h2 ⊢
  rw [Int.emod_eq_of_lt (by omega) (by omega)]
  omega

/-- For coordinates strictly inside the `isize` range the eight neighbour
slots are the plain Moore offsets. -/
theorem neighbour_coordinates_eq (x y : Int)
    (hx1 : isizeMin < x) (hx2 : x < isizeMax)
    (hy1 : isizeMin < y) (hy2 : y < isizeMax) :
    CellArray.neighbour_coordinates x y =
      [(x - 1, y - 1), (x, y - 1), (x + 1, y - 1),
       (x - 1, y), (x + 1, y),
       (x - 1, y + 1), (x, y + 1), (x + 1, y + 1)] := by
  unfold CellArray.neighbour_coordinates
  rw [wrapping_sub_one x hx1 hx2, wrapping_add_one x hx1 hx2,
    wrapping_sub_one y hy1 hy2, wrapping_add_one y hy1 hy2]

theorem isizeMin_lt_natCast (n : Nat) : isizeMin < (n : Int) := by
  simp only [isizeMin]
  omega

theorem natCast_lt_isizeMax {n m : Nat} (h : n < m) (hm : (m : Int) ≤ isizeMax) :
    (n : Int) < isizeMax := by
  simp only [isizeMax] at *
  omega

/-- Claim C6: for every grid and all signed coordinates, `cell`/`mut_cell`
succeed and address the physical cell at column `((x mod W) + W) mod W`,
row `((y mod H) + H) mod H`; in particular `(-1, y)` addresses the same cell
as `(W - 1, y)`, and likewise on the other edges.  (The wrapped index is
always in range, which is what makes the array access panic-free.) -/
theorem c6_wrapped_addressing (H W : Nat) (hH : 0 < H) (hW : 0 < W)
    (g : Grid) (x y : Int) (v : Nat) :
    (wrap x W < W ∧ wrap y H < H) ∧
    (CellArray.cell H W g x y = g (wrap y H) (wrap x W) ∧
     ((wrap x W : Int) = (x % (W : Int) + W) % W ∧
      (wrap y H : Int) = (y % (H : Int) + H) % H)) ∧
    (CellArray.cell H W g (-1) y = CellArray.cell H W g ((W : Int) - 1) y ∧
     CellArray.cell H W g (W : Int) y = CellArray.cell H W g 0 y ∧
     CellArray.cell H W g x (-1) = CellArray.cell H W g x ((H : Int) - 1) ∧
     CellArray.cell H W g x (H : Int) = CellArray.cell H W g x 0) ∧
    CellArray.mut_cell H W g (-1) y v = CellArray.mut_cell H W g ((W : Int) - 1) y v := by
  have hwrap : ∀ (a : Int) (n : Nat), 0 < n → (wrap a n : Int) = (a % (n : Int) + n) % n := by
    intro a n hn
    rw [wrap_eq a n hn, Int.emod_add_emod,
      show a + (n : Int) = a + (n : Int) * 1 by ring, Int.add_mul_emod_self_left]
  have hneg : ∀ (n : Nat), 0 < n → wrap (-1) n = wrap ((n : Int) - 1) n := by
    intro n hn
    rw [wrap_eq_wrap_iff hn]
    exact Int.neg_emod
  have hfull : ∀ (n : Nat), 0 < n → wrap (n : Int) n = wrap 0 n := by
    intro n hn
    rw [wrap_eq_wrap_iff hn, Int.emod_self, Int.zero_emod]
  refine ⟨⟨wrap_lt x W hW, wrap_lt y H hH⟩, ⟨rfl, hwrap x W hW, hwrap y H hH⟩, ?_, ?_⟩
  · refine ⟨?_, ?_, ?_, ?_⟩
    · unfold CellArray.cell
      rw [hneg W hW]
    · unfold CellArray.cell
      rw [hfull W hW]
    · unfold CellArray.cell
      rw [hneg H hH]
    · unfold CellArray.cell
      rw [hfull H hH]
  · unfold CellArray.mut_cell
    rw [hneg W hW]

/-- Witness for claim C6 on a 5 by 5 grid at coordinates `(-1, 7)`. -/
theorem c6_wrapped_addressing_witness :
    (0 < 5 ∧ 0 < 5) ∧
    ((wrap (-1) 5 < 5 ∧ wrap 7 5 < 5) ∧
     (CellArray.cell 5 5 freshGrid (-1) 7 = freshGrid (wrap 7 5) (wrap (-1) 5) ∧
      ((wrap (-1) 5 : Int) = ((-1) % (5 : Int) + 5) % 5 ∧
       (wrap 7 5 : Int) = (7 % (5 : Int) + 5) % 5)) ∧
     (CellArray.cell 5 5 freshGrid (-1) 7 = CellArray.cell 5 5 freshGrid ((5 : Int) - 1) 7 ∧
      CellArray.cell 5 5 freshGrid (5 : Int) 7 = CellArray.cell 5 5 freshGrid 0 7 ∧
      CellArray.cell 5 5 freshGrid (-1) (-1) = CellArray.cell 5 5 freshGrid (-1) ((5 : Int) - 1) ∧
      CellArray.cell 5 5 freshGrid (-1) (5 : Int) = CellArray.cell 5 5 freshGrid (-1) 0) ∧
     CellArray.mut_cell 5 5 freshGrid (-1) 7 9 = CellArray.mut_cell 5 5 freshGrid ((5 : Int) - 1) 7 9) :=
  ⟨⟨by decide, by decide⟩, c6_wrapped_addressing 5 5 (by decide) (by decide) freshGrid (-1) 7 9⟩

/-- Index pairs produced by the nested loops
`for x in 0..H { for y in 0..W { ... } }` shared by `Engine::generate`
(`for x in 0..self.cells.rows() { for y in 0..self.cells.cols()`, where
`rows() = H` and `cols() = W`) and `Engine::randomize`, in iteration order. -/
def genCoords (H W : Nat) : List (Nat × Nat) :=
  (List.range H).bind (fun x => (List.range W).map (fun y => (x, y)))

/-- One iteration of the scan loop of `Engine::generate`
(`src/gol/engine.rs`): read the cache cell at `(x as isize, y as isize)`
(note the loop variable `x` ranges over `0..H` but is passed as the column
coordinate, and `y` over `0..W` as the row coordinate), skip the all-zero
byte, else apply the Life rule to the cached flags, mutating the live grid. -/
def Engine.generateStep (H W : Nat) (cache : Grid) (g : Grid) (p : Nat × Nat) : Option Grid :=
  let cell := CellArray.cell H W cache (p.1 : Int) (p.2 : Int)
  if cell = 0 then some g
  else
    let neighbour_count := GolTypes.Cell.neighbours cell
    if GolTypes.Cell.alive cell then
      if neighbour_count < 2 ∨ neighbour_count > 3 then
        some (CellArray.kill_cell H W g (p.1 : Int) (p.2 : Int))
      else some g
    else
      if neighbour_count = 3 then CellArray.spawn H W g (p.1 : Int) (p.2 : Int)
      else some g

/-- Rust `Engine::generate`: snapshot the live grid into the cache
(`self.cell_cache.clone_from(&self.cells)` — the cache is the unmodified
pre-step value of `g`), then run the scan, threading the live grid. -/
def Engine.generate (H W : Nat) (g : Grid) : Option Grid :=
  (genCoords H W).foldlM (Engine.generateStep H W g) g

/-- The scan step of `Engine::generate` with the `if *cell == 0 { continue; }`
shortcut removed — the comparison scan of claim C10. -/
def Engine.generateStepNoSkip (H W : Nat) (cache : Grid) (g : Grid) (p : Nat × Nat) : Option Grid :=
  let cell := CellArray.cell H W cache (p.1 : Int) (p.2 : Int)
  let neighbour_count := GolTypes.Cell.neighbours cell
  if GolTypes.Cell.alive cell then
    if neighbour_count < 2 ∨ neighbour_count > 3 then
      some (CellArray.kill_cell H W g (p.1 : Int) (p.2 : Int))
    else some g
  else
    if neighbour_count = 3 then CellArray.spawn H W g (p.1 : Int) (p.2 : Int)
    else some g

/-- `Engine::generate` without the zero-byte skip. -/
def Engine.generateNoSkip (H W : Nat) (g : Grid) : Option Grid :=
  (genCoords H W).foldlM (Engine.generateStepNoSkip H W g) g

/-- Rust `Engine::randomize`: `for x in 0..H { for y in 0..W { if rand::random()
{ self.cells.spawn(x as isize, y as isize) } } }`.  The random source is
modelled by an oracle `dec` indexed by the loop variables. -/
def Engine.randomize (H W : Nat) (dec : Nat → Nat → Bool) (g : Grid) : Option Grid :=
  (genCoords H W).foldlM
    (fun gc p =>
      if dec p.1 p.2 then CellArray.spawn H W gc (p.1 : Int) (p.2 : Int) else some gc) g

/-- Physical position (row, column) addressed by the signed coordinate pair
`(x, y)`. -/
def wrapPos (H W : Nat) (p : Int × Int) : Nat × Nat := (wrap p.2 H, wrap p.1 W)

/-- Physical cells touched by the `Engine::randomize` loop (and scanned by
`Engine::generate`), with multiplicity, in iteration order. -/
def visitedCells (H W : Nat) : List (Nat × Nat) :=
  (genCoords H W).map (fun p => wrapPos H W ((p.1 : Int), (p.2 : Int)))

/-- Cached neighbour counts agree with the brute-force recount — the
hypothesis of claim C1 and the conclusion of claim C2. -/
abbrev countsConsistent (H W : Nat) (g : Grid) : Prop :=
  ∀ r, r < H → ∀ c, c < W →
    GolTypes.Cell.neighbours (g r c) = CellArray.calc_neighbours H W g (c : Int) (r : Int)

/-- Conway transition on cached values, as claim C1 states it: an alive cell
survives iff its cached count is 2 or 3, a dead cell becomes alive iff its
cached count is 3. -/
def conwayCached (H W : Nat) (g : Grid) (x y : Int) : Bool :=
  if GolTypes.Cell.alive (CellArray.cell H W g x y) then
    GolTypes.Cell.neighbours (CellArray.cell H W g x y) == 2 ||
    GolTypes.Cell.neighbours (CellArray.cell H W g x y) == 3
  else
    GolTypes.Cell.neighbours (CellArray.cell H W g x y) == 3

/-- A consistent 2 by 3 engine state: one alive cell at column 2, row 0 (byte
1: alive, cached count 0), every other cell dead with the correct cached
count of its alive neighbour slots (bytes 2 and 4). -/
def c1Grid : Grid := fun r c =>
  if r = 0 then (if c = 2 then 1 else 2) else if r = 1 then 4 else 0

/-- Claim C1 fails on non-square grids: `Engine::generate` iterates
`for x in 0..rows()` and `for y in 0..cols()` but passes `(x, y)` as
(column, row), so on the consistent 2 by 3 state `c1Grid` the scan never
visits column 2 and the whole call leaves the grid unchanged — yet the lone
alive cell at `(2, 0)` has cached count 0 and the synchronous Conway step of
the claim kills it. -/
theorem c1_generate_loop_swap :
    countsConsistent 2 3 c1Grid ∧
    GolTypes.Cell.alive (CellArray.cell 2 3 c1Grid 2 0) = true ∧
    conwayCached 2 3 c1Grid 2 0 = false ∧
    Engine.generate 2 3 c1Grid = some c1Grid :=
  ⟨by decide, by decide, by decide, rfl⟩

-- Sequences of `spawn`/`kill_cell` calls, for claim C2.
inductive GridOp where
  | spawn (x y : Int)
  | kill (x y : Int)

/-- Run a sequence of `CellArray::spawn` / `CellArray::kill_cell` calls
(`src/gol/types/cell_array.rs`) from a given grid. -/
def applyOps (H W : Nat) (g : Grid) : List GridOp → Option Grid
  | [] => some g
  | GridOp.spawn x y :: ops => (CellArray.spawn H W g x y).bind (fun g' => applyOps H W g' ops)
  | GridOp.kill x y :: ops => applyOps H W (CellArray.kill_cell H W g x y) ops

/-- Claim C2, counterexample: spawning the same cell of a fresh 3 by 3 grid
twice leaves neighbouring cells with a cached count of 2 although only one
alive cell is adjacent to them — the cached count no longer matches the
brute-force recount after this perfectly legal call sequence. -/
theorem c2_double_spawn_breaks_invariant :
    (applyOps 3 3 freshGrid [GridOp.spawn 0 0, GridOp.spawn 0 0]).map
      (fun g => (GolTypes.Cell.neighbours (CellArray.cell 3 3 g 1 0),
                 CellArray.calc_neighbours 3 3 g 1 0)) = some (2, 1) := by decide

/-- Claim C7 fails on non-square grids: `Engine::randomize` iterates
`for x in 0..H` and `for y in 0..W` but passes `(x, y)` as (column, row), so
on a 2 by 3 grid the cell at column 2, row 0 receives no spawn decision at
all while the cell at column 0, row 0 receives two; behaviourally, an oracle
that wants to spawn exactly the cells of column 2 spawns nothing.  (On square
grids every cell is considered exactly once, as the 5 by 5 count shows.) -/
theorem c7_randomize_loop_swap :
    (visitedCells 2 3).count (0, 2) = 0 ∧
    (visitedCells 2 3).count (0, 0) = 2 ∧
    Engine.randomize 2 3 (fun x _ => decide (x = 2)) freshGrid = some freshGrid ∧
    (∀ r, r < 5 → ∀ c, c < 5 → (visitedCells 5 5).count (r, c) = 1) :=
  ⟨by decide, by decide, rfl, by decide⟩

/-- The `count` argument of the `ptr::copy_nonoverlapping` call in
`CellArray::memcopy` (`src/gol/cell_array.rs`): `H * W`.  Its element type is
the row type `[Cell; W]`, so the call moves `count * W` cells. -/
def memcopyRowCount (H W : Nat) : Nat := H * W

/-- Number of cells actually moved by `CellArray::memcopy`. -/
def memcopyCells (H W : Nat) : Nat := memcopyRowCount H W * W

/-- Number of cells a `CellArray<H, W>` actually owns. -/
def gridCells (H W : Nat) : Nat := H * W

/-- `CellArray::memcopy` on the flat backing storage: defined (`some`) only
when the `memcopyCells H W` cells it moves fit in both buffers; otherwise the
raw copy reads and writes out of bounds (undefined behaviour, `none`). -/
def CellArray.memcopy (H W : Nat) (src dst : List Nat) : Option (List Nat) :=
  if memcopyCells H W ≤ src.length ∧ memcopyCells H W ≤ dst.length then
    some (src.take (memcopyCells H W) ++ dst.drop (memcopyCells H W))
  else none

/-- Claim C9 fails for `CellArray::memcopy`: on a 2 by 2 grid the call passes
`count = H * W = 4` with row element type `[Cell; 2]`, moving 8 cells between
two 4-cell buffers — an out-of-bounds copy, not a cell-exact snapshot. -/
theorem c9_memcopy_out_of_bounds :
    gridCells 2 2 = 4 ∧
    memcopyCells 2 2 = 8 ∧
    gridCells 2 2 < memcopyCells 2 2 ∧
    CellArray.memcopy 2 2 (List.replicate 4 0) (List.replicate 4 0) = none := by decide

/-- Claim C10: skipping cache cells whose byte is exactly 0 is
behaviour-preserving — for every starting state, `Engine::generate` computes
the same result as the identical scan without the skip, because a zero byte
is dead with cached count 0 and the rule would not mutate anything for it. -/
theorem c10_zero_skip_preserving :
    ∀ (H W : Nat) (g : Grid), Engine.generate H W g = Engine.generateNoSkip H W g := by
  intro H W g
  unfold Engine.generate Engine.generateNoSkip
  congr 1
  funext gc p
  simp only [Engine.generateStep, Engine.generateStepNoSkip]
  by_cases h : CellArray.cell H W g (p.1 : Int) (p.2 : Int) = 0
  · have ha : GolTypes.Cell.alive 0 = false := rfl
    have hb : GolTypes.Cell.neighbours 0 = 0 := rfl
    simp [h, ha, hb]
  · simp [h]

/-- Alive flag of a normal-form byte. -/
theorem nf_alive : ∀ (a : Bool) (n : Nat), n < 16 → GolTypes.Cell.alive (nf a n) = a := by decide

/-- Count field of a normal-form byte. -/
theorem nf_neighbours : ∀ (a : Bool) (n : Nat), n < 16 → GolTypes.Cell.neighbours (nf a n) = n := by decide

/-- `types::Cell::spawn` on a normal-form byte sets the alive flag. -/
theorem nf_spawn : ∀ (a : Bool) (n : Nat), n < 16 → GolTypes.Cell.spawn (nf a n) = nf true n := by decide

/-- `types::Cell::kill` on a normal-form byte clears the alive flag. -/
theorem nf_kill : ∀ (a : Bool) (n : Nat), n < 16 → GolTypes.Cell.kill (nf a n) = nf false n := by decide

/-- `types::Cell::add_neighbour` on a normal-form byte below the ceiling
succeeds and increments the count field. -/
theorem nf_add : ∀ (a : Bool) (n : Nat), n < 16 → n + 1 ≤ 8 →
    GolTypes.Cell.add_neighbour (nf a n) = some (nf a (n + 1)) := by decide

/-- `types::Cell::remove_neighbour` on a normal-form byte with a positive
count decrements the count field. -/
theorem nf_remove : ∀ (a : Bool) (n : Nat), n < 16 → 1 ≤ n →
    GolTypes.Cell.remove_neighbour (nf a n) = nf a (n - 1) := by decide

/-- Reading a cell is reading the wrapped physical position. -/
theorem cell_wrapPos (H W : Nat) (g : Grid) (x y : Int) :
    CellArray.cell H W g x y = g (wrapPos H W (x, y)).1 (wrapPos H W (x, y)).2 := rfl

/-- Reading through one write: the written value at the same physical
position, the old value elsewhere. -/
theorem cell_mut_cell (H W : Nat) (g : Grid) (a b x y : Int) (v : Nat) :
    CellArray.cell H W (CellArray.mut_cell H W g a b v) x y =
      if wrapPos H W (x, y) = wrapPos H W (a, b) then v else CellArray.cell H W g x y := by
  unfold CellArray.cell CellArray.mut_cell gupdate wrapPos
  simp only [Prod.mk.injEq]

/-- Direct entries of one write. -/
theorem mut_cell_entry (H W : Nat) (g : Grid) (a b : Int) (v : Nat) (r c : Nat) :
    CellArray.mut_cell H W g a b v r c =
      if (r, c) = wrapPos H W (a, b) then v else g r c := by
  unfold CellArray.mut_cell gupdate wrapPos
  simp only [Prod.mk.injEq]

/-- The brute-force recount never exceeds 8. -/
theorem calc_le_8 (H W : Nat) (g : Grid) (x y : Int) :
    CellArray.calc_neighbours H W g x y ≤ 8 := by
  unfold CellArray.calc_neighbours
  exact (List.countP_le_length _).trans (by norm_num [CellArray.neighbour_coordinates])

/-- Number of neighbour slots of the cell addressed by `(x, y)` that land on
the physical position `q` (the multiplicity with which `q` is a wrapped
Moore neighbour of `(x, y)`). -/
def mult (H W : Nat) (x y : Int) (q : Nat × Nat) : Nat :=
  (CellArray.neighbour_coordinates x y).countP (fun p => decide (wrapPos H W p = q))

/-- Well-formedness invariant of a grid maintained by `spawn`/`kill_cell`:
every in-range cell byte is the normal form of its own alive flag and of the
brute-force count of its alive neighbour slots. -/
def GridInv (H W : Nat) (g : Grid) : Prop :=
  ∀ r, r < H → ∀ c, c < W →
    g r c = nf (GolTypes.Cell.alive (g r c))
               (CellArray.calc_neighbours H W g (c : Int) (r : Int))

/-- A fresh grid satisfies the invariant. -/
theorem gridInv_fresh (H W : Nat) : GridInv H W freshGrid := by
  intro r hr c hc
  have hcalc : CellArray.calc_neighbours H W freshGrid (c : Int) (r : Int) = 0 := by
    unfold CellArray.calc_neighbours
    apply List.countP_eq_zero.mpr
    intro p hp
    exact (by decide : ¬ GolTypes.Cell.alive 0 = true)
  rw [hcalc]
  exact (by decide : (0 : Nat) = nf (GolTypes.Cell.alive 0) 0)

/-- The invariant forces the cached count to equal the brute-force count. -/
theorem gridInv_countsConsistent (H W : Nat) (g : Grid) (h : GridInv H W g) :
    countsConsistent H W g := by
  intro r hr c hc
  have h1 := h r hr c hc
  conv_lhs => rw [h1]
  exact nf_neighbours _ _ (by have := calc_le_8 H W g (c : Int) (r : Int); omega)

/-- Symmetry of neighbour multiplicity on the torus: the number of neighbour
slots of `(x, y)` landing on the physical position `(r, c)` equals the number
of neighbour slots of `(c, r)` landing on the physical position of `(x, y)`.
(The eight Moore offsets are closed under negation.) -/
theorem mult_symm (H W : Nat) (hH : 0 < H) (hW : 0 < W)
    (hHb : (H : Int) ≤ isizeMax) (hWb : (W : Int) ≤ isizeMax)
    (x y : Int) (hx1 : isizeMin < x) (hx2 : x < isizeMax)
    (hy1 : isizeMin < y) (hy2 : y < isizeMax) (r c : Nat)
    (hr : r < H) (hc : c < W) :
    mult H W x y (r, c) = mult H W (c : Int) (r : Int) (wrapPos H W (x, y)) := by
  unfold mult
  rw [neighbour_coordinates_eq x y hx1 hx2 hy1 hy2,
    neighbour_coordinates_eq (c : Int) (r : Int) (isizeMin_lt_natCast c)
      (natCast_lt_isizeMax hc hWb) (isizeMin_lt_natCast r) (natCast_lt_isizeMax hr hHb)]
  unfold wrapPos
  simp only [List.countP_cons, List.countP_nil, decide_eq_true_eq, Prod.mk.injEq]
  simp only [wrap_sub_shift hH hr y 1, wrap_sub_shift hW hc x 1,
    wrap_add_shift hH hr y 1, wrap_add_shift hW hc x 1,
    wrap_id_shift hH hr y, wrap_id_shift hW hc x]
  omega

/-- Flipping one physical cell from dead to alive raises each alive-slot
count by the multiplicity with which the slot list hits that cell. -/
theorem countP_flip_up (H W : Nat) (g : Grid) (a b : Int) (v : Nat)
    (hdead : GolTypes.Cell.alive (CellArray.cell H W g a b) = false)
    (halive : GolTypes.Cell.alive v = true) :
    ∀ L : List (Int × Int),
      L.countP (fun p => GolTypes.Cell.alive
          (CellArray.cell H W (CellArray.mut_cell H W g a b v) p.1 p.2))
        = L.countP (fun p => GolTypes.Cell.alive (CellArray.cell H W g p.1 p.2))
          + L.countP (fun p => decide (wrapPos H W p = wrapPos H W (a, b))) := by
  intro L
  induction L with
  | nil => simp
  | cons e L ih =>
    simp only [List.countP_cons]
    by_cases h : wrapPos H W (e.1, e.2) = wrapPos H W (a, b)
    · have h1 : CellArray.cell H W (CellArray.mut_cell H W g a b v) e.1 e.2 = v := by
        rw [cell_mut_cell, if_pos h]
      have h2 : CellArray.cell H W g e.1 e.2 = CellArray.cell H W g a b := by
        rw [cell_wrapPos H W g e.1 e.2, cell_wrapPos H W g a b, h]
      have h3 : (decide (wrapPos H W e = wrapPos H W (a, b))) = true := decide_eq_true h
      rw [h1, h2, halive, hdead, h3]
      simp only [if_true, if_false, Bool.false_eq_true, if_neg (by simp : ¬ (false = true))]
      omega
    · have h1 : CellArray.cell H W (CellArray.mut_cell H W g a b v) e.1 e.2 =
          CellArray.cell H W g e.1 e.2 := by
        rw [cell_mut_cell, if_neg h]
      have h3 : (decide (wrapPos H W e = wrapPos H W (a, b))) = false :=
        decide_eq_false h
      rw [h1, h3]
      simp only [if_neg (by simp : ¬ (false = true))]
      omega

/-- Flipping one physical cell from alive to dead lowers each alive-slot
count by the multiplicity with which the slot list hits that cell. -/
theorem countP_flip_down (H W : Nat) (g : Grid) (a b : Int) (v : Nat)
    (halive : GolTypes.Cell.alive (CellArray.cell H W g a b) = true)
    (hdead : GolTypes.Cell.alive v = false) :
    ∀ L : List (Int × Int),
      L.countP (fun p => GolTypes.Cell.alive (CellArray.cell H W g p.1 p.2))
        = L.countP (fun p => GolTypes.Cell.alive
            (CellArray.cell H W (CellArray.mut_cell H W g a b v) p.1 p.2))
          + L.countP (fun p => decide (wrapPos H W p = wrapPos H W (a, b))) := by
  intro L
  induction L with
  | nil => simp
  | cons e L ih =>
    simp only [List.countP_cons]
    by_cases h : wrapPos H W (e.1, e.2) = wrapPos H W (a, b)
    · have h1 : CellArray.cell H W (CellArray.mut_cell H W g a b v) e.1 e.2 = v := by
        rw [cell_mut_cell, if_pos h]
      have h2 : CellArray.cell H W g e.1 e.2 = CellArray.cell H W g a b := by
        rw [cell_wrapPos H W g e.1 e.2, cell_wrapPos H W g a b, h]
      have h3 : (decide (wrapPos H W e = wrapPos H W (a, b))) = true := decide_eq_true h
      rw [h1, h2, halive, hdead, h3]
      simp only [if_true, if_neg (by simp : ¬ (false = true))]
      omega
    · have h1 : CellArray.cell H W (CellArray.mut_cell H W g a b v) e.1 e.2 =
          CellArray.cell H W g e.1 e.2 := by
        rw [cell_mut_cell, if_neg h]
      have h3 : (decide (wrapPos H W e = wrapPos H W (a, b))) = false :=
        decide_eq_false h
      rw [h1, h3]
      simp only [if_neg (by simp : ¬ (false = true))]
      omega

/-- Brute-force recount after spawning the cell at `(a, b)` (previously dead). -/
theorem calc_flip_up (H W : Nat) (g : Grid) (a b : Int) (v : Nat)
    (hdead : GolTypes.Cell.alive (CellArray.cell H W g a b) = false)
    (halive : GolTypes.Cell.alive v = true) (x y : Int) :
    CellArray.calc_neighbours H W (CellArray.mut_cell H W g a b v) x y
      = CellArray.calc_neighbours H W g x y + mult H W x y (wrapPos H W (a, b)) :=
  countP_flip_up H W g a b v hdead halive (CellArray.neighbour_coordinates x y)

/-- Brute-force recount before killing the cell at `(a, b)` (previously alive). -/
theorem calc_flip_down (H W : Nat) (g : Grid) (a b : Int) (v : Nat)
    (halive : GolTypes.Cell.alive (CellArray.cell H W g a b) = true)
    (hdead : GolTypes.Cell.alive v = false) (x y : Int) :
    CellArray.calc_neighbours H W g x y
      = CellArray.calc_neighbours H W (CellArray.mut_cell H W g a b v) x y
        + mult H W x y (wrapPos H W (a, b)) :=
  countP_flip_down H W g a b v halive hdead (CellArray.neighbour_coordinates x y)

/-- The brute-force recount only reads alive flags of in-range cells. -/
theorem calc_congr_alive (H W : Nat) (hH : 0 < H) (hW : 0 < W) (g1 g2 : Grid)
    (h : ∀ r, r < H → ∀ c, c < W →
      GolTypes.Cell.alive (g1 r c) = GolTypes.Cell.alive (g2 r c))
    (x y : Int) :
    CellArray.calc_neighbours H W g1 x y = CellArray.calc_neighbours H W g2 x y := by
  unfold CellArray.calc_neighbours
  apply List.countP_congr
  intro p hp
  have := h (wrap p.2 H) (wrap_lt _ _ hH) (wrap p.1 W) (wrap_lt _ _ hW)
  unfold CellArray.cell
  rw [this]

/-- Count function with the entry at one physical position raised by one. -/
def incAt (N : Nat → Nat → Nat) (t : Nat × Nat) : Nat → Nat → Nat :=
  fun r c => if (r, c) = t then N r c + 1 else N r c

/-- Count function with the entry at one physical position lowered by one. -/
def decAt (N : Nat → Nat → Nat) (t : Nat × Nat) : Nat → Nat → Nat :=
  fun r c => if (r, c) = t then N r c - 1 else N r c

theorem incAt_apply (N : Nat → Nat → Nat) (t : Nat × Nat) (r c : Nat) :
    incAt N t r c = if (r, c) = t then N r c + 1 else N r c := rfl

theorem decAt_apply (N : Nat → Nat → Nat) (t : Nat × Nat) (r c : Nat) :
    decAt N t r c = if (r, c) = t then N r c - 1 else N r c := rfl

/-- Specification of the neighbour-increment loop of `CellArray::spawn`: if
every in-range cell is in normal form and no cell's count would be pushed
past 8, the fold succeeds and adds, at each physical position, the number of
slots of the list that land there. -/
theorem addList_spec (H W : Nat) (hH : 0 < H) (hW : 0 < W) (L : List (Int × Int)) :
    ∀ (g : Grid) (A : Nat → Nat → Bool) (N : Nat → Nat → Nat),
      (∀ r, r < H → ∀ c, c < W → g r c = nf (A r c) (N r c)) →
      (∀ r, r < H → ∀ c, c < W →
        N r c + L.countP (fun p => decide (wrapPos H W p = (r, c))) ≤ 8) →
      ∃ g', L.foldlM (CellArray.addNb H W) g = some g' ∧
        ∀ r, r < H → ∀ c, c < W →
          g' r c = nf (A r c)
            (N r c + L.countP (fun p => decide (wrapPos H W p = (r, c)))) := by
  induction L with
  | nil =>
    intro g A N hg _
    refine ⟨g, rfl, ?_⟩
    intro r hr c hc
    simpa using hg r hr c hc
  | cons a L ih =>
    intro g A N hg hN
    obtain ⟨ax, ay⟩ := a
    set t := wrapPos H W (ax, ay) with ht
    have ht1 : t.1 < H := by rw [ht]; exact wrap_lt _ _ hH
    have ht2 : t.2 < W := by rw [ht]; exact wrap_lt _ _ hW
    have hcons := hN t.1 ht1 t.2 ht2
    rw [List.countP_cons] at hcons
    have hdec : (decide (wrapPos H W (ax, ay) = (t.1, t.2))) = true :=
      decide_eq_true (by rw [← ht])
    rw [hdec, if_pos rfl] at hcons
    have hbound : N t.1 t.2 + 1 ≤ 8 := by omega
    have hcell : CellArray.cell H W g ax ay = nf (A t.1 t.2) (N t.1 t.2) := by
      rw [cell_wrapPos, ← ht]
      exact hg t.1 ht1 t.2 ht2
    have hstep : CellArray.addNb H W g (ax, ay) =
        some (CellArray.mut_cell H W g ax ay (nf (A t.1 t.2) (N t.1 t.2 + 1))) := by
      show (GolTypes.Cell.add_neighbour (CellArray.cell H W g ax ay)).map
        (CellArray.mut_cell H W g ax ay) = _
      rw [hcell, nf_add _ _ (by omega) hbound]
      rfl
    have hg1 : ∀ r, r < H → ∀ c, c < W →
        CellArray.mut_cell H W g ax ay (nf (A t.1 t.2) (N t.1 t.2 + 1)) r c
          = nf (A r c) (incAt N t r c) := by
      intro r hr c hc
      rw [mut_cell_entry, ← ht, incAt_apply]
      by_cases h : (r, c) = t
      · rw [if_pos h, if_pos h]
        have hre : r = t.1 := congrArg Prod.fst h
        have hce : c = t.2 := congrArg Prod.snd h
        rw [hre, hce]
      · rw [if_neg h, if_neg h]
        exact hg r hr c hc
    have hN1 : ∀ r, r < H → ∀ c, c < W →
        incAt N t r c + L.countP (fun p => decide (wrapPos H W p = (r, c))) ≤ 8 := by
      intro r hr c hc
      have h2 := hN r hr c hc
      rw [List.countP_cons] at h2
      rw [incAt_apply]
      by_cases h : (r, c) = t
      · have hd : (decide (wrapPos H W (ax, ay) = (r, c))) = true :=
          decide_eq_true (by rw [← ht, h])
        rw [hd, if_pos rfl] at h2
        rw [if_pos h]
        have hre : r = t.1 := congrArg Prod.fst h
        have hce : c = t.2 := congrArg Prod.snd h
        rw [hre, hce] at h2 ⊢
        omega
      · have hd : (decide (wrapPos H W (ax, ay) = (r, c))) = false :=
          decide_eq_false (by rw [← ht]; exact fun hcon => h hcon.symm)
        rw [hd, if_neg Bool.false_ne_true] at h2
        rw [if_neg h]
        omega
    obtain ⟨g', hfold, hpt⟩ :=
      ih (CellArray.mut_cell H W g ax ay (nf (A t.1 t.2) (N t.1 t.2 + 1))) A (incAt N t) hg1 hN1
    refine ⟨g', ?_, ?_⟩
    · rw [List.foldlM_cons, hstep]
      exact hfold
    · intro r hr c hc
      have h3 := hpt r hr c hc
      rw [incAt_apply] at h3
      rw [List.countP_cons]
      by_cases h : (r, c) = t
      · have hd : (decide (wrapPos H W (ax, ay) = (r, c))) = true :=
          decide_eq_true (by rw [← ht, h])
        rw [hd, if_pos rfl]
        rw [if_pos h] at h3
        rw [h3]
        exact congrArg _ (by omega)
      · have hd : (decide (wrapPos H W (ax, ay) = (r, c))) = false :=
          decide_eq_false (by rw [← ht]; exact fun hcon => h hcon.symm)
        rw [hd, if_neg Bool.false_ne_true]
        rw [if_neg h] at h3
        rw [h3]
        exact congrArg _ (by omega)

/-- Specification of the neighbour-decrement loop of `CellArray::kill_cell`:
if every in-range cell is in normal form with count at most 8 and each cell's
count is at least the number of slots of the list landing there, the fold
subtracts exactly that number at each physical position (in particular
`remove_neighbour` never underflows). -/
theorem rmList_spec (H W : Nat) (hH : 0 < H) (hW : 0 < W) (L : List (Int × Int)) :
    ∀ (g : Grid) (A : Nat → Nat → Bool) (N : Nat → Nat → Nat),
      (∀ r, r < H → ∀ c, c < W → g r c = nf (A r c) (N r c)) →
      (∀ r, r < H → ∀ c, c < W → N r c ≤ 8) →
      (∀ r, r < H → ∀ c, c < W →
        L.countP (fun p => decide (wrapPos H W p = (r, c))) ≤ N r c) →
      ∀ r, r < H → ∀ c, c < W →
        (L.foldl (CellArray.rmNb H W) g) r c
          = nf (A r c) (N r c - L.countP (fun p => decide (wrapPos H W p = (r, c)))) := by
  induction L with
  | nil =>
    intro g A N hg _ _ r hr c hc
    simpa using hg r hr c hc
  | cons a L ih =>
    intro g A N hg hN8 hNlo
    obtain ⟨ax, ay⟩ := a
    set t := wrapPos H W (ax, ay) with ht
    have ht1 : t.1 < H := by rw [ht]; exact wrap_lt _ _ hH
    have ht2 : t.2 < W := by rw [ht]; exact wrap_lt _ _ hW
    have hcons := hNlo t.1 ht1 t.2 ht2
    rw [List.countP_cons] at hcons
    have hdec : (decide (wrapPos H W (ax, ay) = (t.1, t.2))) = true :=
      decide_eq_true (by rw [← ht])
    rw [hdec, if_pos rfl] at hcons
    have hpos : 1 ≤ N t.1 t.2 := by omega
    have hcell : CellArray.cell H W g ax ay = nf (A t.1 t.2) (N t.1 t.2) := by
      rw [cell_wrapPos, ← ht]
      exact hg t.1 ht1 t.2 ht2
    have hstep : CellArray.rmNb H W g (ax, ay) =
        CellArray.mut_cell H W g ax ay (nf (A t.1 t.2) (N t.1 t.2 - 1)) := by
      show CellArray.mut_cell H W g ax ay
        (GolTypes.Cell.remove_neighbour (CellArray.cell H W g ax ay)) = _
      rw [hcell, nf_remove _ _ (by have := hN8 t.1 ht1 t.2 ht2; omega) hpos]
    have hg1 : ∀ r, r < H → ∀ c, c < W →
        CellArray.mut_cell H W g ax ay (nf (A t.1 t.2) (N t.1 t.2 - 1)) r c
          = nf (A r c) (decAt N t r c) := by
      intro r hr c hc
      rw [mut_cell_entry, ← ht, decAt_apply]
      by_cases h : (r, c) = t
      · rw [if_pos h, if_pos h]
        have hre : r = t.1 := congrArg Prod.fst h
        have hce : c = t.2 := congrArg Prod.snd h
        rw [hre, hce]
      · rw [if_neg h, if_neg h]
        exact hg r hr c hc
    have hN81 : ∀ r, r < H → ∀ c, c < W → decAt N t r c ≤ 8 := by
      intro r hr c hc
      have := hN8 r hr c hc
      rw [decAt_apply]
      by_cases h : (r, c) = t
      · rw [if_pos h]; omega
      · rw [if_neg h]; omega
    have hNlo1 : ∀ r, r < H → ∀ c, c < W →
        L.countP (fun p => decide (wrapPos H W p = (r, c))) ≤ decAt N t r c := by
      intro r hr c hc
      have h2 := hNlo r hr c hc
      rw [List.countP_cons] at h2
      rw [decAt_apply]
      by_cases h : (r, c) = t
      · have hd : (decide (wrapPos H W (ax, ay) = (r, c))) = true :=
          decide_eq_true (by rw [← ht, h])
        rw [hd, if_pos rfl] at h2
        rw [if_pos h]
        omega
      · have hd : (decide (wrapPos H W (ax, ay) = (r, c))) = false :=
          decide_eq_false (by rw [← ht]; exact fun hcon => h hcon.symm)
        rw [hd, if_neg Bool.false_ne_true] at h2
        rw [if_neg h]
        omega
    intro r hr c hc
    have h3 := ih (CellArray.mut_cell H W g ax ay (nf (A t.1 t.2) (N t.1 t.2 - 1))) A
      (decAt N t) hg1 hN81 hNlo1 r hr c hc
    rw [decAt_apply] at h3
    rw [List.foldl_cons, hstep, List.countP_cons]
    by_cases h : (r, c) = t
    · have hd : (decide (wrapPos H W (ax, ay) = (r, c))) = true :=
        decide_eq_true (by rw [← ht, h])
      rw [hd, if_pos rfl]
      rw [if_pos h] at h3
      rw [h3]
      exact congrArg _ (by omega)
    · have hd : (decide (wrapPos H W (ax, ay) = (r, c))) = false :=
        decide_eq_false (by rw [← ht]; exact fun hcon => h hcon.symm)
      rw [hd, if_neg Bool.false_ne_true]
      rw [if_neg h] at h3
      rw [h3]
      exact congrArg _ (by omega)

/-- Alive flags after setting the cell at physical position `t` alive. -/
def aliveAfterSpawn (g : Grid) (t : Nat × Nat) : Nat → Nat → Bool :=
  fun r c => if (r, c) = t then true else GolTypes.Cell.alive (g r c)

theorem aliveAfterSpawn_apply (g : Grid) (t : Nat × Nat) (r c : Nat) :
    aliveAfterSpawn g t r c = if (r, c) = t then true else GolTypes.Cell.alive (g r c) := rfl

/-- Alive flags after clearing the cell at physical position `t`. -/
def aliveAfterKill (g : Grid) (t : Nat × Nat) : Nat → Nat → Bool :=
  fun r c => if (r, c) = t then false else GolTypes.Cell.alive (g r c)

theorem aliveAfterKill_apply (g : Grid) (t : Nat × Nat) (r c : Nat) :
    aliveAfterKill g t r c = if (r, c) = t then false else GolTypes.Cell.alive (g r c) := rfl

/-- Brute-force count as a function of the physical position. -/
def calcOf (H W : Nat) (g : Grid) : Nat → Nat → Nat :=
  fun r c => CellArray.calc_neighbours H W g (c : Int) (r : Int)

theorem calcOf_apply (H W : Nat) (g : Grid) (r c : Nat) :
    calcOf H W g r c = CellArray.calc_neighbours H W g (c : Int) (r : Int) := rfl

theorem calcOf_le_8 (H W : Nat) (g : Grid) (r c : Nat) : calcOf H W g r c ≤ 8 :=
  calc_le_8 H W g (c : Int) (r : Int)

theorem nf_alive_of (b : Nat) (a : Bool) (n : Nat) (hb : b = nf a n) (hn : n < 16) :
    GolTypes.Cell.alive b = a := by
  rw [hb]
  exact nf_alive a n hn

/-- `CellArray::spawn` on a well-formed grid whose target cell is dead:
it succeeds (none of the `add_neighbour` assertions fires), preserves the
invariant, and sets exactly the target's alive flag. -/
theorem spawn_ok (H W : Nat) (hH : 0 < H) (hW : 0 < W)
    (hHb : (H : Int) ≤ isizeMax) (hWb : (W : Int) ≤ isizeMax) (g : Grid) (x y : Int)
    (hx1 : isizeMin < x) (hx2 : x < isizeMax) (hy1 : isizeMin < y) (hy2 : y < isizeMax)
    (hInv : GridInv H W g)
    (hdead : GolTypes.Cell.alive (CellArray.cell H W g x y) = false) :
    ∃ g', CellArray.spawn H W g x y = some g' ∧ GridInv H W g' ∧
      ∀ r, r < H → ∀ c, c < W →
        GolTypes.Cell.alive (g' r c)
          = (GolTypes.Cell.alive (g r c) || decide ((r, c) = wrapPos H W (x, y))) := by
  set t := wrapPos H W (x, y) with ht
  have ht1 : t.1 < H := by rw [ht]; exact wrap_lt _ _ hH
  have ht2 : t.2 < W := by rw [ht]; exact wrap_lt _ _ hW
  have hcellt : CellArray.cell H W g x y = g t.1 t.2 := by rw [cell_wrapPos, ← ht]
  have hAt : GolTypes.Cell.alive (g t.1 t.2) = false := by rw [← hcellt]; exact hdead
  have hgt : g t.1 t.2 = nf false (calcOf H W g t.1 t.2) := by
    have h0 := hInv t.1 ht1 t.2 ht2
    rw [hAt] at h0
    rw [← calcOf_apply] at h0
    exact h0
  have hv : GolTypes.Cell.spawn (CellArray.cell H W g x y)
      = nf true (calcOf H W g t.1 t.2) := by
    rw [hcellt, hgt]
    exact nf_spawn false _ (by have := calcOf_le_8 H W g t.1 t.2; omega)
  have hvAlive : GolTypes.Cell.alive (GolTypes.Cell.spawn (CellArray.cell H W g x y)) = true := by
    rw [hv]
    exact nf_alive true _ (by have := calcOf_le_8 H W g t.1 t.2; omega)
  have hg1 : ∀ r, r < H → ∀ c, c < W →
      CellArray.mut_cell H W g x y (GolTypes.Cell.spawn (CellArray.cell H W g x y)) r c
        = nf (aliveAfterSpawn g t r c) (calcOf H W g r c) := by
    intro r hr c hc
    rw [mut_cell_entry, ← ht, aliveAfterSpawn_apply]
    by_cases h : (r, c) = t
    · rw [if_pos h, if_pos h, hv]
      have hre : r = t.1 := congrArg Prod.fst h
      have hce : c = t.2 := congrArg Prod.snd h
      rw [hre, hce]
    · rw [if_neg h, if_neg h]
      conv_lhs => rw [hInv r hr c hc]
      rw [calcOf_apply]
  have hflip : ∀ (r c : Nat),
      CellArray.calc_neighbours H W
        (CellArray.mut_cell H W g x y (GolTypes.Cell.spawn (CellArray.cell H W g x y)))
        (c : Int) (r : Int)
      = calcOf H W g r c + mult H W (c : Int) (r : Int) t := by
    intro r c
    have h0 := calc_flip_up H W g x y (GolTypes.Cell.spawn (CellArray.cell H W g x y))
      hdead hvAlive (c : Int) (r : Int)
    rw [← ht] at h0
    rw [calcOf_apply]
    exact h0
  have hNbound : ∀ r, r < H → ∀ c, c < W →
      calcOf H W g r c + (CellArray.neighbour_coordinates x y).countP
        (fun p => decide (wrapPos H W p = (r, c))) ≤ 8 := by
    intro r hr c hc
    have hm : (CellArray.neighbour_coordinates x y).countP
        (fun p => decide (wrapPos H W p = (r, c))) = mult H W x y (r, c) := rfl
    rw [hm, mult_symm H W hH hW hHb hWb x y hx1 hx2 hy1 hy2 r c hr hc, ← ht]
    have h8 := calc_le_8 H W
      (CellArray.mut_cell H W g x y (GolTypes.Cell.spawn (CellArray.cell H W g x y)))
      (c : Int) (r : Int)
    rw [hflip r c] at h8
    omega
  obtain ⟨g', hfold, hpt⟩ := addList_spec H W hH hW (CellArray.neighbour_coordinates x y)
    (CellArray.mut_cell H W g x y (GolTypes.Cell.spawn (CellArray.cell H W g x y)))
    (aliveAfterSpawn g t) (calcOf H W g) hg1 hNbound
  have hptcnt : ∀ r, r < H → ∀ c, c < W →
      g' r c = nf (aliveAfterSpawn g t r c)
        (calcOf H W g r c + mult H W (c : Int) (r : Int) t) := by
    intro r hr c hc
    have h3 := hpt r hr c hc
    have hm : (CellArray.neighbour_coordinates x y).countP
        (fun p => decide (wrapPos H W p = (r, c))) = mult H W x y (r, c) := rfl
    rw [hm, mult_symm H W hH hW hHb hWb x y hx1 hx2 hy1 hy2 r c hr hc, ← ht] at h3
    exact h3
  have hcnt_le : ∀ r c, calcOf H W g r c + mult H W (c : Int) (r : Int) t ≤ 8 := by
    intro r c
    have h8 := calc_le_8 H W
      (CellArray.mut_cell H W g x y (GolTypes.Cell.spawn (CellArray.cell H W g x y)))
      (c : Int) (r : Int)
    rw [hflip r c] at h8
    exact h8
  have hAlive' : ∀ r, r < H → ∀ c, c < W →
      GolTypes.Cell.alive (g' r c) = aliveAfterSpawn g t r c := by
    intro r hr c hc
    exact nf_alive_of _ _ _ (hptcnt r hr c hc) (by have := hcnt_le r c; omega)
  refine ⟨g', hfold, ?_, ?_⟩
  · intro r hr c hc
    have hsame : ∀ r', r' < H → ∀ c', c' < W →
        GolTypes.Cell.alive (g' r' c') = GolTypes.Cell.alive
          (CellArray.mut_cell H W g x y (GolTypes.Cell.spawn (CellArray.cell H W g x y)) r' c') := by
      intro r' hr' c' hc'
      rw [hAlive' r' hr' c' hc']
      exact (nf_alive_of _ _ _ (hg1 r' hr' c' hc')
        (by have := calcOf_le_8 H W g r' c'; omega)).symm
    have hcalc' : CellArray.calc_neighbours H W g' (c : Int) (r : Int)
        = calcOf H W g r c + mult H W (c : Int) (r : Int) t := by
      rw [calc_congr_alive H W hH hW g'
        (CellArray.mut_cell H W g x y (GolTypes.Cell.spawn (CellArray.cell H W g x y)))
        hsame (c : Int) (r : Int)]
      exact hflip r c
    rw [hptcnt r hr c hc, ← hcalc', nf_alive _ _ (by rw [hcalc']; have := hcnt_le r c; omega)]
  · intro r hr c hc
    rw [hAlive' r hr c hc, aliveAfterSpawn_apply]
    by_cases h : (r, c) = t
    · rw [if_pos h, decide_eq_true h]
      simp
    · rw [if_neg h, decide_eq_false h]
      simp

/-- `CellArray::kill_cell` on a well-formed grid whose target cell is alive:
no `remove_neighbour` underflows, the invariant is preserved, and exactly the
target's alive flag is cleared. -/
theorem kill_ok (H W : Nat) (hH : 0 < H) (hW : 0 < W)
    (hHb : (H : Int) ≤ isizeMax) (hWb : (W : Int) ≤ isizeMax) (g : Grid) (x y : Int)
    (hx1 : isizeMin < x) (hx2 : x < isizeMax) (hy1 : isizeMin < y) (hy2 : y < isizeMax)
    (hInv : GridInv H W g)
    (halive : GolTypes.Cell.alive (CellArray.cell H W g x y) = true) :
    GridInv H W (CellArray.kill_cell H W g x y) ∧
      ∀ r, r < H → ∀ c, c < W →
        GolTypes.Cell.alive (CellArray.kill_cell H W g x y r c)
          = (GolTypes.Cell.alive (g r c) && ! decide ((r, c) = wrapPos H W (x, y))) := by
  set t := wrapPos H W (x, y) with ht
  have ht1 : t.1 < H := by rw [ht]; exact wrap_lt _ _ hH
  have ht2 : t.2 < W := by rw [ht]; exact wrap_lt _ _ hW
  have hcellt : CellArray.cell H W g x y = g t.1 t.2 := by rw [cell_wrapPos, ← ht]
  have hAt : GolTypes.Cell.alive (g t.1 t.2) = true := by rw [← hcellt]; exact halive
  have hgt : g t.1 t.2 = nf true (calcOf H W g t.1 t.2) := by
    have h0 := hInv t.1 ht1 t.2 ht2
    rw [hAt] at h0
    rw [← calcOf_apply] at h0
    exact h0
  have hv : GolTypes.Cell.kill (CellArray.cell H W g x y)
      = nf false (calcOf H W g t.1 t.2) := by
    rw [hcellt, hgt]
    exact nf_kill true _ (by have := calcOf_le_8 H W g t.1 t.2; omega)
  have hvDead : GolTypes.Cell.alive (GolTypes.Cell.kill (CellArray.cell H W g x y)) = false := by
    rw [hv]
    exact nf_alive false _ (by have := calcOf_le_8 H W g t.1 t.2; omega)
  have hg1 : ∀ r, r < H → ∀ c, c < W →
      CellArray.mut_cell H W g x y (GolTypes.Cell.kill (CellArray.cell H W g x y)) r c
        = nf (aliveAfterKill g t r c) (calcOf H W g r c) := by
    intro r hr c hc
    rw [mut_cell_entry, ← ht, aliveAfterKill_apply]
    by_cases h : (r, c) = t
    · rw [if_pos h, if_pos h, hv]
      have hre : r = t.1 := congrArg Prod.fst h
      have hce : c = t.2 := congrArg Prod.snd h
      rw [hre, hce]
    · rw [if_neg h, if_neg h]
      conv_lhs => rw [hInv r hr c hc]
      rw [calcOf_apply]
  have hflip : ∀ (r c : Nat),
      calcOf H W g r c
        = CellArray.calc_neighbours H W
            (CellArray.mut_cell H W g x y (GolTypes.Cell.kill (CellArray.cell H W g x y)))
            (c : Int) (r : Int)
          + mult H W (c : Int) (r : Int) t := by
    intro r c
    have h0 := calc_flip_down H W g x y (GolTypes.Cell.kill (CellArray.cell H W g x y))
      halive hvDead (c : Int) (r : Int)
    rw [← ht] at h0
    rw [calcOf_apply]
    exact h0
  have hN8 : ∀ r, r < H → ∀ c, c < W → calcOf H W g r c ≤ 8 := by
    intro r _ c _
    exact calcOf_le_8 H W g r c
  have hNlo : ∀ r, r < H → ∀ c, c < W →
      (CellArray.neighbour_coordinates x y).countP
        (fun p => decide (wrapPos H W p = (r, c))) ≤ calcOf H W g r c := by
    intro r hr c hc
    have hm : (CellArray.neighbour_coordinates x y).countP
        (fun p => decide (wrapPos H W p = (r, c))) = mult H W x y (r, c) := rfl
    rw [hm, mult_symm H W hH hW hHb hWb x y hx1 hx2 hy1 hy2 r c hr hc, ← ht]
    have := hflip r c
    omega
  have hpt := rmList_spec H W hH hW (CellArray.neighbour_coordinates x y)
    (CellArray.mut_cell H W g x y (GolTypes.Cell.kill (CellArray.cell H W g x y)))
    (aliveAfterKill g t) (calcOf H W g) hg1 hN8 hNlo
  have hkill_eq : ∀ r c : Nat, CellArray.kill_cell H W g x y r c
      = (CellArray.neighbour_coordinates x y).foldl (CellArray.rmNb H W)
          (CellArray.mut_cell H W g x y (GolTypes.Cell.kill (CellArray.cell H W g x y))) r c := by
    intro r c
    rfl
  have hptcnt : ∀ r, r < H → ∀ c, c < W →
      CellArray.kill_cell H W g x y r c = nf (aliveAfterKill g t r c)
        (calcOf H W g r c - mult H W (c : Int) (r : Int) t) := by
    intro r hr c hc
    have h3 := hpt r hr c hc
    have hm : (CellArray.neighbour_coordinates x y).countP
        (fun p => decide (wrapPos H W p = (r, c))) = mult H W x y (r, c) := rfl
    rw [hm, mult_symm H W hH hW hHb hWb x y hx1 hx2 hy1 hy2 r c hr hc, ← ht] at h3
    rw [hkill_eq r c]
    exact h3
  have hsub : ∀ r c : Nat, calcOf H W g r c - mult H W (c : Int) (r : Int) t
      = CellArray.calc_neighbours H W
          (CellArray.mut_cell H W g x y (GolTypes.Cell.kill (CellArray.cell H W g x y)))
          (c : Int) (r : Int) := by
    intro r c
    have := hflip r c
    omega
  have hAlive' : ∀ r, r < H → ∀ c, c < W →
      GolTypes.Cell.alive (CellArray.kill_cell H W g x y r c) = aliveAfterKill g t r c := by
    intro r hr c hc
    refine nf_alive_of _ _ _ (hptcnt r hr c hc) ?_
    have := calcOf_le_8 H W g r c
    omega
  constructor
  · intro r hr c hc
    have hsame : ∀ r', r' < H → ∀ c', c' < W →
        GolTypes.Cell.alive (CellArray.kill_cell H W g x y r' c') = GolTypes.Cell.alive
          (CellArray.mut_cell H W g x y (GolTypes.Cell.kill (CellArray.cell H W g x y)) r' c') := by
      intro r' hr' c' hc'
      rw [hAlive' r' hr' c' hc']
      exact (nf_alive_of _ _ _ (hg1 r' hr' c' hc')
        (by have := calcOf_le_8 H W g r' c'; omega)).symm
    have hcalc' : CellArray.calc_neighbours H W (CellArray.kill_cell H W g x y) (c : Int) (r : Int)
        = calcOf H W g r c - mult H W (c : Int) (r : Int) t := by
      rw [calc_congr_alive H W hH hW (CellArray.kill_cell H W g x y)
        (CellArray.mut_cell H W g x y (GolTypes.Cell.kill (CellArray.cell H W g x y)))
        hsame (c : Int) (r : Int)]
      rw [hsub r c]
    rw [hptcnt r hr c hc, ← hcalc',
      nf_alive _ _ (by rw [hcalc']; have := calcOf_le_8 H W g r c; omega)]
  · intro r hr c hc
    rw [hAlive' r hr c hc, aliveAfterKill_apply]
    by_cases h : (r, c) = t
    · rw [if_pos h, decide_eq_true h]
      simp
    · rw [if_neg h, decide_eq_false h]
      simp

/-- A call sequence is state-change-valid when every `spawn` targets a cell
that is currently dead and every `kill_cell` targets a cell that is currently
alive (evaluated along the execution; a failed spawn continues from the
unchanged grid, which never happens on valid runs). -/
def OkSeq (H W : Nat) (g : Grid) : List GridOp → Bool
  | [] => true
  | GridOp.spawn x y :: ops =>
      (GolTypes.Cell.alive (CellArray.cell H W g x y) == false) &&
      OkSeq H W ((CellArray.spawn H W g x y).getD g) ops
  | GridOp.kill x y :: ops =>
      (GolTypes.Cell.alive (CellArray.cell H W g x y) == true) &&
      OkSeq H W (CellArray.kill_cell H W g x y) ops

/-- Coordinates of a call lie strictly between `isize::MIN` and
`isize::MAX`, so the call's `wrapping_sub`/`wrapping_add` neighbour offsets
coincide with the plain Moore offsets. -/
def GridOp.okCoords : GridOp → Bool
  | GridOp.spawn x y =>
      decide (isizeMin < x) && decide (x < isizeMax) &&
      decide (isizeMin < y) && decide (y < isizeMax)
  | GridOp.kill x y =>
      decide (isizeMin < x) && decide (x < isizeMax) &&
      decide (isizeMin < y) && decide (y < isizeMax)

/-- Any state-change-valid call sequence at non-boundary coordinates runs
without a panic and preserves the normal-form invariant. -/
theorem okSeq_applyOps (H W : Nat) (hH : 0 < H) (hW : 0 < W)
    (hHb : (H : Int) ≤ isizeMax) (hWb : (W : Int) ≤ isizeMax) (ops : List GridOp) :
    ∀ g, GridInv H W g → ops.all GridOp.okCoords = true → OkSeq H W g ops = true →
      ∃ g', applyOps H W g ops = some g' ∧ GridInv H W g' := by
  induction ops with
  | nil =>
    intro g hg _ _
    exact ⟨g, rfl, hg⟩
  | cons op ops ih =>
    intro g hg hco hok
    rw [List.all_cons, Bool.and_eq_true] at hco
    obtain ⟨hco1, hco2⟩ := hco
    cases op with
    | spawn x y =>
      simp only [GridOp.okCoords, Bool.and_eq_true, decide_eq_true_eq] at hco1
      obtain ⟨⟨⟨hx1, hx2⟩, hy1⟩, hy2⟩ := hco1
      rw [OkSeq, Bool.and_eq_true, beq_iff_eq] at hok
      obtain ⟨hdead, hrest⟩ := hok
      obtain ⟨g1, hsp, hInv1, _⟩ :=
        spawn_ok H W hH hW hHb hWb g x y hx1 hx2 hy1 hy2 hg hdead
      rw [hsp, Option.getD_some] at hrest
      obtain ⟨g2, happ, hInv2⟩ := ih g1 hInv1 hco2 hrest
      refine ⟨g2, ?_, hInv2⟩
      rw [applyOps, hsp, Option.some_bind]
      exact happ
    | kill x y =>
      simp only [GridOp.okCoords, Bool.and_eq_true, decide_eq_true_eq] at hco1
      obtain ⟨⟨⟨hx1, hx2⟩, hy1⟩, hy2⟩ := hco1
      rw [OkSeq, Bool.and_eq_true, beq_iff_eq] at hok
      obtain ⟨halive, hrest⟩ := hok
      obtain ⟨hInv1, _⟩ := kill_ok H W hH hW hHb hWb g x y hx1 hx2 hy1 hy2 hg halive
      obtain ⟨g2, happ, hInv2⟩ := ih _ hInv1 hco2 hrest
      exact ⟨g2, happ, hInv2⟩

/-- Claim C2, amended: starting from a freshly constructed (all-dead,
zero-count) grid, after any sequence of `spawn`/`kill_cell` calls at signed
coordinates strictly between `isize::MIN` and `isize::MAX` *in which every
spawn targets a currently-dead cell and every kill targets a currently-alive
cell*, the run completes without a panic and for every coordinate the cached
neighbour count equals the brute-force count of alive cells among its 8
wrapped Moore neighbour slots.  (The dimensions must be representable as
`isize`, as every constructible grid's are.  Unrestricted sequences break
the invariant twice over: spawning the same cell twice double-counts its
neighbours — see the counterexample — and at the excluded boundary
coordinates the `wrapping_sub`/`wrapping_add` offsets land on the wrong
wrapped cells, see `spawn_isize_min_breaks_invariant`.) -/
theorem c2_amended_count_invariant (H W : Nat) (ops : List GridOp)
    (hH : 0 < H) (hW : 0 < W)
    (hHb : (H : Int) ≤ isizeMax) (hWb : (W : Int) ≤ isizeMax)
    (hco : ops.all GridOp.okCoords = true)
    (hok : OkSeq H W freshGrid ops = true) :
    ∃ g', applyOps H W freshGrid ops = some g' ∧ countsConsistent H W g' := by
  obtain ⟨g', h1, h2⟩ :=
    okSeq_applyOps H W hH hW hHb hWb ops freshGrid (gridInv_fresh H W) hco hok
  exact ⟨g', h1, gridInv_countsConsistent H W g' h2⟩

/-- Witness for the amended claim C2: a spawn-then-kill round trip at the
corner of a 3 by 3 grid is a valid sequence from the fresh grid. -/
theorem c2_amended_count_invariant_witness :
    (0 < 3 ∧ ((3 : Nat) : Int) ≤ isizeMax ∧
     [GridOp.spawn 0 0, GridOp.kill 0 0].all GridOp.okCoords = true ∧
     OkSeq 3 3 freshGrid [GridOp.spawn 0 0, GridOp.kill 0 0] = true) ∧
    ∃ g', applyOps 3 3 freshGrid [GridOp.spawn 0 0, GridOp.kill 0 0] = some g' ∧
      countsConsistent 3 3 g' :=
  ⟨⟨by decide, by decide, by decide, by decide⟩,
   c2_amended_count_invariant 3 3 [GridOp.spawn 0 0, GridOp.kill 0 0]
     (by decide) (by decide) (by decide) (by decide) (by decide) (by decide)⟩

/-- The boundary restriction of the amended claim C2 is forced: spawning at
`x = isize::MIN` on a fresh 3 by 3 grid is a valid call (the target, column
1 of row 0, is dead), but `x.wrapping_sub(1)` wraps to `isize::MAX`, which
lies in column 1 — not in column 0 where the plain left neighbour would be.
The increments therefore miss the physical cell (row 0, column 0) although
it is adjacent to the spawned cell: its cached count stays 0 while the
brute-force recount is 1. -/
theorem spawn_isize_min_breaks_invariant :
    OkSeq 3 3 freshGrid [GridOp.spawn isizeMin 0] = true ∧
    wrapping_sub isizeMin 1 = isizeMax ∧
    (applyOps 3 3 freshGrid [GridOp.spawn isizeMin 0]).map
      (fun g => (GolTypes.Cell.neighbours (g 0 0),
                 CellArray.calc_neighbours 3 3 g 0 0)) = some (0, 1) := by
  refine ⟨by decide, ?_, by decide⟩
  simp only [wrapping_sub, isizeMin, isizeMax]
  decide
